import Mathlib

/-!
Verification of the audio turn-segmentation pipeline of the
speech-speech-ai-assistant repository.

The development shallowly embeds:
  - `src/audio/vad.py` (`VoiceActivityDetector`): the per-frame classifier
    wrapper `is_speech` and the hysteresis gate `process_frame` / `reset`;
  - `src/assistant/voice_assistant.py` (`_vad_stream`): the streaming
    capture loop with its low-energy rejection, max-duration cutoff and
    post-hoc acceptance policy.

Modelling conventions:
  - float32 samples are modelled as rationals;
  - the external WebRTC engine is an oracle: a chunk carries the boolean
    classification the engine would produce for it (`Chunk.speech`); the
    classifier wrapper is modelled separately with an explicit engine
    oracle that may fail (`Option Bool`, `none` = raised exception);
  - the producer/consumer queue is modelled by the canonical schedule in
    which the consumer keeps pace with production, so the loop consumes
    the input chunk list in order; exhausting the input with the loop
    condition still true models the real loop blocking forever on an
    empty queue (`StreamResult.listening`);
  - numeric constants are the values the Python floats evaluate to:
    blocksize `int(16000*0.03) = 480`, `max_chunks = int(30.0/0.03) = 1000`,
    minimum length `16000*0.3 = 4800`, thresholds `0.001 = 1/1000` and
    `0.08 = 2/25`, and the hard-coded padding exclusion `25`.
-/

/-- One audio block delivered by the stream callback: the samples of the
block together with the classification the external engine produces for
it. -/
structure Chunk where
  speech : Bool
  samples : List ℚ
deriving DecidableEq

/-- State of `VoiceActivityDetector` relevant to `process_frame`:
`is_speech_active`, `speech_frame_count`, `silence_frame_count` and the
ring buffer (which the source clears but never fills). -/
structure GateState where
  isActive : Bool
  speechFrameCount : ℕ
  silenceFrameCount : ℕ
  ringBuffer : List (List ℚ)
deriving DecidableEq

/-- Gate state directly after `__init__` (vad.py lines 70-76). -/
def initGate : GateState := ⟨false, 0, 0, []⟩

/-- Model of `VoiceActivityDetector.reset` (vad.py lines 228-234): forces
inactive, zeroes both counters, clears the ring buffer. -/
def resetGate (_g : GateState) : GateState := ⟨false, 0, 0, []⟩

/-- Model of `VoiceActivityDetector.process_frame` (vad.py lines 132-186)
given the classification `detected` of the frame.  `t` is
`speech_trigger_frames`, `p` is `padding_frames`.  Returns the new state
with the `(speech_started, speech_ended)` event pair. -/
def processFrame (t p : ℕ) (g : GateState) (detected : Bool) :
    GateState × Bool × Bool :=
  if g.isActive = false then
    if detected then
      if t ≤ g.speechFrameCount + 1 then
        (⟨true, 0, g.silenceFrameCount, []⟩, true, false)
      else
        (⟨false, g.speechFrameCount + 1, g.silenceFrameCount, g.ringBuffer⟩,
          false, false)
    else
      (⟨false, 0, g.silenceFrameCount, g.ringBuffer⟩, false, false)
  else
    if detected = false then
      if p ≤ g.silenceFrameCount + 1 then
        (⟨false, g.speechFrameCount, 0, g.ringBuffer⟩, false, true)
      else
        (⟨true, g.speechFrameCount, g.silenceFrameCount + 1, g.ringBuffer⟩,
          false, false)
    else
      (⟨true, g.speechFrameCount, 0, g.ringBuffer⟩, false, false)

/-- Error raised by the frame classifier: the `ValueError` of vad.py
line 118 for a mis-sized frame. -/
inductive FrameError where
  | invalidFrameLength
deriving DecidableEq

/-- Truncation toward zero, as `numpy.astype(int16)` performs on the
scaled float. -/
def ratTrunc (q : ℚ) : ℤ := if 0 ≤ q then ⌊q⌋ else ⌈q⌉

/-- Clip a sample into the interval from -1 to 1 (vad.py line 98). -/
def clipSample (q : ℚ) : ℚ := max (-1) (min 1 q)

/-- One sample of `_audio_to_bytes`: clip, scale by 32767, truncate
(vad.py lines 98-99).  The result provably lies in the int16 range, so no
wrap-around occurs. -/
def sampleToInt16 (q : ℚ) : ℤ := ratTrunc (clipSample q * 32767)

/-- Model of `VoiceActivityDetector._audio_to_bytes` (vad.py lines
83-102) as the list of 16-bit PCM values. -/
def audioToPCM (frame : List ℚ) : List ℤ := frame.map sampleToInt16

/-- Model of `VoiceActivityDetector.is_speech` (vad.py lines 104-130).
`engine` is the external WebRTC oracle on the PCM data; `none` models the
engine raising an exception, which the source catches and converts into
`False` (treat as silence).  A frame whose length differs from
`frameSize` raises `ValueError` before the engine runs. -/
def is_speech (frameSize : ℕ) (engine : List ℤ → Option Bool)
    (frame : List ℚ) : Except FrameError Bool :=
  if frame.length ≠ frameSize then Except.error FrameError.invalidFrameLength
  else Except.ok ((engine (audioToPCM frame)).getD false)

/-- `process_frame` including the classifier call of vad.py line 151: a
mis-sized frame propagates the classifier error to the caller; engine
failures do not. -/
def processFrameChecked (frameSize t p : ℕ) (engine : List ℤ → Option Bool)
    (g : GateState) (frame : List ℚ) :
    Except FrameError (GateState × Bool × Bool) :=
  (is_speech frameSize engine frame).map (fun b => processFrame t p g b)

/-- Value of `max_chunks = int(max_recording_duration / frame_duration)`
(voice_assistant.py line 255) with `30.0 / 0.03`, which evaluates to
exactly 1000 in double precision. -/
def maxChunks : ℕ := 1000

/-- Sum of squared samples. -/
def sumSq (l : List ℚ) : ℚ := (l.map (fun x => x * x)).sum

/-- Mean of squared samples, `np.mean(arr**2)`. -/
def meanSq (l : List ℚ) : ℚ := sumSq l / l.length

/-- Maximum sample value of a waveform, `audio.max()` — the signed
maximum, not the absolute one.  The source only evaluates it on nonempty
audio; the empty case returns 0. -/
def listMax : List ℚ → ℚ
  | [] => 0
  | h :: tl => tl.foldl max h

/-- Peak absolute amplitude of a waveform.  This follows the words of the
specification (peak absolute amplitude), for comparison with `listMax`
which is what the source computes. -/
def absMax : List ℚ → ℚ
  | [] => 0
  | h :: tl => tl.foldl (fun a x => max a |x|) |h|

/-- The low-energy test of voice_assistant.py lines 304-307: drop the
last 25 recorded chunks (the hard-coded padding count), flatten, and
compare the mean square against 0.001.  `np.mean` of an empty array is
NaN and `NaN < 0.001` is false, hence the emptiness guard. -/
def lowEnergy (recorded : List (List ℚ)) : Bool :=
  !((recorded.take (recorded.length - 25)).flatten.isEmpty) &&
    decide (meanSq (recorded.take (recorded.length - 25)).flatten < 1 / 1000)

/-- The post-hoc acceptance policy of voice_assistant.py lines 332-345:
concatenate, reject waveforms shorter than `16000 * 0.3 = 4800` samples,
then reject waveforms whose maximum sample value is below 0.08, else
accept. -/
def postHoc (recorded : List (List ℚ)) : Option (List ℚ) :=
  if recorded ≠ [] then
    if (recorded.flatten).length < 4800 then none
    else if listMax recorded.flatten < 2 / 25 then none
    else some recorded.flatten
  else none

/-- Post-hoc policy as the specification words it for claim C2: the
amplitude floor reads the peak ABSOLUTE amplitude.  Second definition for
comparison with `postHoc`, which embeds the source. -/
def postHocSpec (recorded : List (List ℚ)) : Option (List ℚ) :=
  if recorded ≠ [] then
    if (recorded.flatten).length < 4800 then none
    else if absMax recorded.flatten < 2 / 25 then none
    else some recorded.flatten
  else none

/-- Consumer-loop state of `_vad_stream`: gate, `speech_started`,
`recorded_chunks` (as sample lists) and `chunks_recorded`. -/
structure LoopState where
  gate : GateState
  speechStarted : Bool
  recordedChunks : List (List ℚ)
  chunksRecorded : ℕ
deriving DecidableEq

/-- Loop state at session start (voice_assistant.py lines 244-255). -/
def initLoop : LoopState := ⟨initGate, false, [], 0⟩

/-- Gate update for one consumed chunk; the session gate is built with
the defaults `speech_trigger_frames = 3` and
`padding_frames = round(750/30) = 25`. -/
def stepGate (s : LoopState) (c : Chunk) : GateState × Bool × Bool :=
  processFrame 3 25 s.gate c.speech

/-- Value of `speech_started` after consuming the chunk. -/
def stepStarted (s : LoopState) (c : Chunk) : Bool :=
  s.speechStarted || (stepGate s c).2.1

/-- Value of `recorded_chunks` after consuming the chunk: appended once
`speech_started` holds (including the chunk that triggered it). -/
def stepRecorded (s : LoopState) (c : Chunk) : List (List ℚ) :=
  if stepStarted s c then s.recordedChunks ++ [c.samples] else s.recordedChunks

/-- Value of `chunks_recorded` after consuming the chunk. -/
def stepCount (s : LoopState) (c : Chunk) : ℕ :=
  if stepStarted s c then s.chunksRecorded + 1 else s.chunksRecorded

/-- Full loop state after consuming one chunk. -/
def stepState (s : LoopState) (c : Chunk) : LoopState :=
  ⟨(stepGate s c).1, stepStarted s c, stepRecorded s c, stepCount s c⟩

/-- Code after the while loop (voice_assistant.py lines 323-345): the
returned waveform, paired with the number of times the max-duration
warning is printed. -/
def finishStream (s : LoopState) : Option (List ℚ) × ℕ :=
  if s.speechStarted = false then (none, 0)
  else (postHoc s.recordedChunks,
        if maxChunks ≤ s.chunksRecorded then 1 else 0)

/-- Outcome of running the capture loop on a finite prefix of the audio
stream: either the loop is still running when the provided input is
exhausted (the real loop polls an empty queue forever), or the function
returned. -/
inductive StreamResult where
  | listening (s : LoopState)
  | finished (ret : Option (List ℚ)) (warnCount : ℕ)
deriving DecidableEq

/-- The consumer loop of `_vad_stream` (voice_assistant.py lines
278-345).  The loop condition `not speech_ended and chunks_recorded <
max_chunks` is checked before each dequeue; `speech_ended` exits are the
two explicit branches below (`break` after an accepted end, restart after
a low-energy rejection). -/
def runLoop : List Chunk → LoopState → StreamResult
  | [], s =>
    if maxChunks ≤ s.chunksRecorded then
      StreamResult.finished (finishStream s).1 (finishStream s).2
    else StreamResult.listening s
  | c :: rest, s =>
    if maxChunks ≤ s.chunksRecorded then
      StreamResult.finished (finishStream s).1 (finishStream s).2
    else if (stepGate s c).2.2 then
      if lowEnergy (stepRecorded s c) then runLoop rest initLoop
      else
        StreamResult.finished (finishStream (stepState s c)).1
          (finishStream (stepState s c)).2
    else runLoop rest (stepState s c)

/-- Model of `_vad_stream` on a finite input stream. -/
def vadStream (input : List Chunk) : StreamResult := runLoop input initLoop

/-- The local variables live at the `if ended:` branch of
voice_assistant.py lines 301-317, with the pending queue reified. -/
structure SessionVars where
  gate : GateState
  speechStarted : Bool
  speechEnded : Bool
  recordedChunks : List (List ℚ)
  chunksRecorded : ℕ
  queue : List Chunk
deriving DecidableEq

/-- The `if ended:` branch itself (voice_assistant.py lines 301-317):
on low energy reset the gate, clear every accumulator, replace the queue
with a fresh empty one and continue (`Sum.inl`); otherwise break with the
kept buffer (`Sum.inr`). -/
def onEndedBranch (v : SessionVars) : SessionVars ⊕ List (List ℚ) :=
  if lowEnergy v.recordedChunks then
    Sum.inl ⟨resetGate v.gate, false, false, [], 0, []⟩
  else Sum.inr v.recordedChunks

/-! ## Gate traces -/

/-- One gate transition, keeping only the state. -/
def stepGateState (t p : ℕ) (g : GateState) (b : Bool) : GateState :=
  (processFrame t p g b).1

/-- Gate state after feeding a classification sequence to a fresh gate. -/
def gateAfter (t p : ℕ) (bs : List Bool) : GateState :=
  bs.foldl (stepGateState t p) initGate

/-- Gate state just before the frame at index `n` is processed. -/
def gAt (t p : ℕ) (bs : List Bool) (n : ℕ) : GateState :=
  gateAfter t p (bs.take n)

/-- The `speech_started` event fires at index `n` of the run. -/
def startedAt (t p : ℕ) (bs : List Bool) (n : ℕ) : Prop :=
  n < bs.length ∧ (processFrame t p (gAt t p bs n) (bs.getD n false)).2.1 = true

/-- The `speech_ended` event fires at index `n` of the run. -/
def endedAt (t p : ℕ) (bs : List Bool) (n : ℕ) : Prop :=
  n < bs.length ∧ (processFrame t p (gAt t p bs n) (bs.getD n false)).2.2 = true

lemma processFrame_started (t p : ℕ) (g : GateState) (b : Bool)
    (h : (processFrame t p g b).2.1 = true) :
    g.isActive = false ∧ b = true ∧ t ≤ g.speechFrameCount + 1 ∧
      (processFrame t p g b).1 = ⟨true, 0, g.silenceFrameCount, []⟩ := by
  unfold processFrame at h ⊢
  split_ifs at h ⊢ <;> simp_all

lemma processFrame_ended (t p : ℕ) (g : GateState) (b : Bool)
    (h : (processFrame t p g b).2.2 = true) :
    g.isActive = true ∧ b = false ∧ p ≤ g.silenceFrameCount + 1 ∧
      (processFrame t p g b).1 = ⟨false, g.speechFrameCount, 0, g.ringBuffer⟩ := by
  unfold processFrame at h ⊢
  split_ifs at h ⊢ <;> simp_all

lemma processFrame_active_to_idle (t p : ℕ) (g : GateState) (b : Bool)
    (h1 : g.isActive = true) (h2 : (processFrame t p g b).1.isActive = false) :
    (processFrame t p g b).2.2 = true := by
  unfold processFrame at h2 ⊢
  split_ifs at h2 ⊢ <;> simp_all

lemma gAt_zero (t p : ℕ) (bs : List Bool) : gAt t p bs 0 = initGate := rfl

lemma gAt_succ (t p : ℕ) (bs : List Bool) (n : ℕ) (h : n < bs.length) :
    gAt t p bs (n + 1) = stepGateState t p (gAt t p bs n) (bs.getD n false) := by
  have h1 : bs[n]? = some bs[n] := List.getElem?_eq_getElem h
  unfold gAt gateAfter
  rw [List.take_succ, h1, List.foldl_append]
  simp [List.getD_eq_getElem?_getD, h1]

lemma gAt_stable (t p : ℕ) (bs : List Bool) (n : ℕ) (h : bs.length ≤ n) :
    gAt t p bs (n + 1) = gAt t p bs n := by
  unfold gAt
  rw [List.take_of_length_le h, List.take_of_length_le (le_trans h (Nat.le_succ n))]

/-- Documentation a gate state carries about the run that produced it: an
active gate has a zero speech counter, an idle gate has a zero silence
counter, and each counter with value `c` certifies `c` uniformly
classified frames directly before position `n`. -/
def GateDoc (bs : List Bool) (n : ℕ) (g : GateState) : Prop :=
  (g.isActive = true → g.speechFrameCount = 0) ∧
  (g.isActive = false → g.silenceFrameCount = 0) ∧
  (g.isActive = false → g.speechFrameCount ≤ n ∧
    ∀ m, n - g.speechFrameCount ≤ m → m < n → bs.getD m false = true) ∧
  (g.isActive = true → g.silenceFrameCount ≤ n ∧
    ∀ m, n - g.silenceFrameCount ≤ m → m < n → bs.getD m false = false)

lemma gateDocStep (bs : List Bool) (t p n : ℕ) (g : GateState) (b : Bool)
    (hbn : bs.getD n false = b) (H : GateDoc bs n g) :
    GateDoc bs (n + 1) (stepGateState t p g b) := by
  obtain ⟨H1, H2, H3, H4⟩ := H
  unfold GateDoc stepGateState processFrame
  split_ifs with hA hb ht hb2 hp2
  · -- idle, speech frame, trigger reached
    refine ⟨fun _ => rfl, by simp, by simp, fun _ => ?_⟩
    have hz : g.silenceFrameCount = 0 := H2 hA
    simp only [hz]
    exact ⟨Nat.zero_le _, fun m h1 h2 => by omega⟩
  · -- idle, speech frame, still counting
    refine ⟨by simp, by simpa using H2 hA, fun _ => ?_, by simp⟩
    obtain ⟨hc, hw⟩ := H3 hA
    refine ⟨by simpa using Nat.succ_le_succ hc, ?_⟩
    intro m h1 h2
    simp only at h1
    rcases Nat.lt_succ_iff_lt_or_eq.mp h2 with hmn | hmn
    · exact hw m (by omega) hmn
    · subst hmn
      rw [hbn]
      revert hb
      cases b <;> simp
  · -- idle, silence frame: speech counter resets to 0
    refine ⟨by simp, by simpa using H2 hA, fun _ => ?_, by simp⟩
    refine ⟨Nat.zero_le _, ?_⟩
    intro m h1 h2
    simp only at h1
    omega
  · -- active, silence frame, padding reached: gate closes
    have hA' : g.isActive = true := by
      revert hA
      cases g.isActive <;> simp
    refine ⟨by simp, fun _ => rfl, fun _ => ?_, by simp⟩
    have hz : g.speechFrameCount = 0 := H1 hA'
    simp only [hz]
    exact ⟨Nat.zero_le _, fun m h1 h2 => by omega⟩
  · -- active, silence frame, still padding
    have hA' : g.isActive = true := by
      revert hA
      cases g.isActive <;> simp
    refine ⟨by simpa using H1 hA', by simp, by simp, fun _ => ?_⟩
    obtain ⟨hc, hw⟩ := H4 hA'
    refine ⟨by simpa using Nat.succ_le_succ hc, ?_⟩
    intro m h1 h2
    simp only at h1
    rcases Nat.lt_succ_iff_lt_or_eq.mp h2 with hmn | hmn
    · exact hw m (by omega) hmn
    · subst hmn
      rw [hbn]
      revert hb2
      cases b <;> simp
  · -- active, speech frame: silence counter resets to 0
    have hA' : g.isActive = true := by
      revert hA
      cases g.isActive <;> simp
    refine ⟨by simpa using H1 hA', by simp, by simp, fun _ => ?_⟩
    refine ⟨Nat.zero_le _, ?_⟩
    intro m h1 h2
    simp only at h1
    omega

/-- The invariant holds along every gate run from a fresh gate. -/
lemma gateDoc_at (t p : ℕ) (bs : List Bool) : ∀ n : ℕ, n ≤ bs.length →
    GateDoc bs n (gAt t p bs n) := by
  intro n
  induction n with
  | zero =>
    intro _
    refine ⟨by simp [gAt_zero, initGate], by simp [gAt_zero, initGate],
      fun _ => ?_, fun h => ?_⟩
    · exact ⟨by simp [gAt_zero, initGate], fun m h1 h2 => by omega⟩
    · rw [gAt_zero] at h
      simp [initGate] at h
  | succ n ih =>
    intro hn1
    have hn : n < bs.length := hn1
    rw [gAt_succ t p bs n hn]
    exact gateDocStep bs t p n (gAt t p bs n) (bs.getD n false) rfl
      (ih (le_of_lt hn))

lemma started_active_after (t p : ℕ) (bs : List Bool) (i : ℕ)
    (h : startedAt t p bs i) : (gAt t p bs (i + 1)).isActive = true := by
  obtain ⟨hi, hev⟩ := h
  have hs := processFrame_started t p (gAt t p bs i) (bs.getD i false) hev
  rw [gAt_succ t p bs i hi]
  unfold stepGateState
  rw [hs.2.2.2]

lemma started_idle_at (t p : ℕ) (bs : List Bool) (i : ℕ)
    (h : startedAt t p bs i) : (gAt t p bs i).isActive = false :=
  (processFrame_started t p _ _ h.2).1

/-- An active-to-idle crossing in a gate run passes through a
`speech_ended` event. -/
lemma crossing_has_ended (t p : ℕ) (bs : List Bool) : ∀ b a, a ≤ b →
    (gAt t p bs a).isActive = true → (gAt t p bs b).isActive = false →
    ∃ k, a ≤ k ∧ k < b ∧ endedAt t p bs k := by
  intro b
  induction b with
  | zero =>
    intro a ha h1 h2
    have ha0 : a = 0 := Nat.le_zero.mp ha
    subst ha0
    rw [h1] at h2
    exact absurd h2 (by simp)
  | succ b ih =>
    intro a ha h1 h2
    by_cases hab : a = b + 1
    · subst hab
      rw [h1] at h2
      exact absurd h2 (by simp)
    · have hab' : a ≤ b := by omega
      by_cases hb : (gAt t p bs b).isActive = true
      · by_cases hlen : b < bs.length
        · refine ⟨b, hab', Nat.lt_succ_self b, hlen, ?_⟩
          have hstep := gAt_succ t p bs b hlen
          unfold stepGateState at hstep
          rw [hstep] at h2
          exact processFrame_active_to_idle t p _ _ hb h2
        · rw [gAt_stable t p bs b (by omega)] at h2
          rw [hb] at h2
          exact absurd h2 (by simp)
      · have hb' : (gAt t p bs b).isActive = false := by
          revert hb
          cases (gAt t p bs b).isActive <;> simp
        obtain ⟨k, hk1, hk2, hk3⟩ := ih a hab' h1 hb'
        exact ⟨k, hk1, by omega, hk3⟩

instance (t p : ℕ) (bs : List Bool) (n : ℕ) : Decidable (startedAt t p bs n) := by
  unfold startedAt
  infer_instance

instance (t p : ℕ) (bs : List Bool) (n : ℕ) : Decidable (endedAt t p bs n) := by
  unfold endedAt
  infer_instance

/-- C4: on every frame sequence, `speech_started` fires only after at
least `speech_trigger_frames` consecutive frames classified true with no
intervening false (the window directly before and including the firing
index is uniformly true), it fires at most once per active session (two
firings are separated by a `speech_ended` event), and a silence frame
while counting toward the trigger resets `speech_frame_count` to 0. -/
theorem c4_trigger_discipline : ∀ (t p : ℕ) (bs : List Bool),
    (∀ i, startedAt t p bs i →
      t ≤ i + 1 ∧ ∀ m, i + 1 - t ≤ m → m ≤ i → bs.getD m false = true) ∧
    (∀ i j, i < j → startedAt t p bs i → startedAt t p bs j →
      ∃ k, i < k ∧ k < j ∧ endedAt t p bs k) ∧
    (∀ g : GateState, g.isActive = false →
      (processFrame t p g false).1.speechFrameCount = 0) := by
  intro t p bs
  refine ⟨?_, ?_, ?_⟩
  · intro i hi
    obtain ⟨hlen, hev⟩ := hi
    obtain ⟨hidle, hbtrue, htle, _⟩ :=
      processFrame_started t p (gAt t p bs i) (bs.getD i false) hev
    obtain ⟨_, _, hwin, _⟩ := gateDoc_at t p bs i (le_of_lt hlen)
    obtain ⟨hc, hw⟩ := hwin hidle
    refine ⟨by omega, ?_⟩
    intro m h1 h2
    rcases Nat.lt_or_ge m i with hmi | hmi
    · exact hw m (by omega) hmi
    · have hm : m = i := by omega
      subst hm
      exact hbtrue
  · intro i j hij hi hj
    have h1 : (gAt t p bs (i + 1)).isActive = true :=
      started_active_after t p bs i hi
    have h2 : (gAt t p bs j).isActive = false := started_idle_at t p bs j hj
    obtain ⟨k, hk1, hk2, hk3⟩ := crossing_has_ended t p bs j (i + 1) hij h1 h2
    exact ⟨k, by omega, hk2, hk3⟩
  · intro g hg
    unfold processFrame
    rw [if_pos hg]
    simp

/-- C4 witness: with the defaults, three consecutive speech frames fire
the trigger at index 2, and the theorem yields the window fact for the
first frame. -/
theorem c4_witness :
    startedAt 3 25 [true, true, true] 2 ∧
      List.getD [true, true, true] 0 false = true := by
  refine ⟨by decide, ?_⟩
  exact ((c4_trigger_discipline 3 25 [true, true, true]).1 2 (by decide)).2 0
    (by decide) (by decide)

/-- C5: on every frame sequence, `speech_ended` fires only after at least
`padding_frames` consecutive frames classified false with no intervening
true (the window directly before and including the firing index is
uniformly false), and a speech frame while counting silence resets
`silence_frame_count` to 0. -/
theorem c5_padding_discipline : ∀ (t p : ℕ) (bs : List Bool),
    (∀ i, endedAt t p bs i →
      p ≤ i + 1 ∧ ∀ m, i + 1 - p ≤ m → m ≤ i → bs.getD m false = false) ∧
    (∀ g : GateState, g.isActive = true →
      (processFrame t p g true).1.silenceFrameCount = 0) := by
  intro t p bs
  refine ⟨?_, ?_⟩
  · intro i hi
    obtain ⟨hlen, hev⟩ := hi
    obtain ⟨hact, hbfalse, hple, _⟩ :=
      processFrame_ended t p (gAt t p bs i) (bs.getD i false) hev
    obtain ⟨_, _, _, hwin⟩ := gateDoc_at t p bs i (le_of_lt hlen)
    obtain ⟨hc, hw⟩ := hwin hact
    refine ⟨by omega, ?_⟩
    intro m h1 h2
    rcases Nat.lt_or_ge m i with hmi | hmi
    · exact hw m (by omega) hmi
    · have hm : m = i := by omega
      subst hm
      exact hbfalse
  · intro g hg
    unfold processFrame
    rw [if_neg (by simp [hg])]
    simp

/-- C5 witness: 3 speech frames then 25 silence frames end the utterance
at index 27, and the theorem yields the window fact there. -/
theorem c5_witness :
    endedAt 3 25 (List.replicate 3 true ++ List.replicate 25 false) 27 ∧
      List.getD (List.replicate 3 true ++ List.replicate 25 false) 27 false
        = false := by
  refine ⟨by decide, ?_⟩
  exact ((c5_padding_discipline 3 25
    (List.replicate 3 true ++ List.replicate 25 false)).1 27 (by decide)).2 27
    (by decide) (by decide)

/-! ## Classifier contract, reset, reachability -/

/-- C7: the frame classifier fails with `InvalidFrameLength` exactly when
the frame length differs from the expected frame size; for correctly
sized frames it always succeeds, an engine failure is converted locally
into a false (silence) classification, and `process_frame` on a correctly
sized frame never observes an error. -/
theorem c7_classifier_contract : ∀ (frameSize t p : ℕ)
    (engine : List ℤ → Option Bool) (frame : List ℚ) (g : GateState),
    (frame.length ≠ frameSize →
      is_speech frameSize engine frame =
        Except.error FrameError.invalidFrameLength) ∧
    (frame.length = frameSize →
      is_speech frameSize engine frame =
        Except.ok ((engine (audioToPCM frame)).getD false)) ∧
    (frame.length = frameSize → engine (audioToPCM frame) = none →
      is_speech frameSize engine frame = Except.ok false) ∧
    (frame.length = frameSize →
      processFrameChecked frameSize t p engine g frame =
        Except.ok (processFrame t p g ((engine (audioToPCM frame)).getD false))) := by
  intro frameSize t p engine frame g
  refine ⟨?_, ?_, ?_, ?_⟩
  · intro h
    simp [is_speech, h]
  · intro h
    simp [is_speech, h]
  · intro h he
    simp [is_speech, h, he]
  · intro h
    simp [processFrameChecked, is_speech, h, Except.map]

/-- C7 witness: a correctly sized frame with an always-failing engine
still classifies as silence and the error never reaches the caller. -/
theorem c7_witness :
    ([(1 : ℚ) / 2].length = 1) ∧
      is_speech 1 (fun _ => none) [(1 : ℚ) / 2] = Except.ok false :=
  ⟨rfl, (c7_classifier_contract 1 3 25 (fun _ => none) [(1 : ℚ) / 2]
    initGate).2.2.1 rfl rfl⟩

/-- C8: `reset` is idempotent — applying it twice equals applying it once
— it may be applied to any state, and the state it produces is exactly
the initial one: inactive, both counters zero, ring history cleared. -/
theorem c8_reset_idempotent : ∀ g : GateState,
    resetGate (resetGate g) = resetGate g ∧ resetGate g = initGate ∧
    (resetGate g).isActive = false ∧ (resetGate g).speechFrameCount = 0 ∧
    (resetGate g).silenceFrameCount = 0 ∧ (resetGate g).ringBuffer = [] :=
  fun _ => ⟨rfl, rfl, rfl, rfl, rfl, rfl⟩

/-- Gate states reachable from construction by any interleaving of
`process_frame` and `reset` calls. -/
inductive ReachableGate (t p : ℕ) : GateState → Prop where
  | init : ReachableGate t p initGate
  | frame (g : GateState) (b : Bool) : ReachableGate t p g →
      ReachableGate t p (processFrame t p g b).1
  | reset (g : GateState) : ReachableGate t p g →
      ReachableGate t p (resetGate g)

lemma silence_zero_step (t p : ℕ) (g : GateState) (b : Bool)
    (h : g.isActive = false → g.silenceFrameCount = 0) :
    (processFrame t p g b).1.isActive = false →
      (processFrame t p g b).1.silenceFrameCount = 0 := by
  unfold processFrame
  split_ifs with hA hb ht hb2 hp2 <;> intro hh <;> simp_all

/-- C9: in every state reachable from construction by `process_frame`
and `reset` calls, an inactive gate has a zero silence counter, and
therefore on the `speech_started` transition (which does not touch the
silence counter) the silence counter of the new active state is already
zero. -/
theorem c9_silence_invariant : ∀ (t p : ℕ) (g : GateState),
    ReachableGate t p g →
    (g.isActive = false → g.silenceFrameCount = 0) ∧
    (∀ b, (processFrame t p g b).2.1 = true →
      (processFrame t p g b).1.silenceFrameCount = 0) := by
  intro t p g hreach
  have hP : (g.isActive = false → g.silenceFrameCount = 0) := by
    induction hreach with
    | init => intro _; rfl
    | frame g b hg ih => exact silence_zero_step t p g b ih
    | reset g hg ih => intro _; rfl
  refine ⟨hP, ?_⟩
  intro b hb
  obtain ⟨hidle, _, _, hnew⟩ := processFrame_started t p g b hb
  rw [hnew]
  exact hP hidle

/-- C9 witness: the state after two speech frames is reachable, firing
the trigger from it leaves the silence counter at zero. -/
theorem c9_witness :
    ReachableGate 3 25 ⟨false, 2, 0, []⟩ ∧
      (processFrame 3 25 ⟨false, 2, 0, []⟩ true).2.1 = true ∧
      (processFrame 3 25 ⟨false, 2, 0, []⟩ true).1.silenceFrameCount = 0 := by
  have h1 : ReachableGate 3 25 ⟨false, 1, 0, []⟩ :=
    ReachableGate.frame initGate true ReachableGate.init
  have h2 : ReachableGate 3 25 ⟨false, 2, 0, []⟩ :=
    ReachableGate.frame ⟨false, 1, 0, []⟩ true h1
  exact ⟨h2, by decide,
    (c9_silence_invariant 3 25 ⟨false, 2, 0, []⟩ h2).2 true (by decide)⟩

/-! ## Capture-loop run lemmas -/

lemma runLoop_nil (s : LoopState) (h : ¬ maxChunks ≤ s.chunksRecorded) :
    runLoop [] s = StreamResult.listening s := by
  simp [runLoop, h]

lemma runLoop_cap (input : List Chunk) (s : LoopState)
    (h : maxChunks ≤ s.chunksRecorded) :
    runLoop input s =
      StreamResult.finished (finishStream s).1 (finishStream s).2 := by
  cases input with
  | nil => simp [runLoop, h]
  | cons c rest => simp [runLoop, h]

lemma runLoop_cons_continue (c : Chunk) (rest : List Chunk) (s : LoopState)
    (h1 : ¬ maxChunks ≤ s.chunksRecorded)
    (h2 : (stepGate s c).2.2 = false) :
    runLoop (c :: rest) s = runLoop rest (stepState s c) := by
  simp [runLoop, h1, h2]

lemma runLoop_cons_reject (c : Chunk) (rest : List Chunk) (s : LoopState)
    (h1 : ¬ maxChunks ≤ s.chunksRecorded)
    (h2 : (stepGate s c).2.2 = true)
    (h3 : lowEnergy (stepRecorded s c) = true) :
    runLoop (c :: rest) s = runLoop rest initLoop := by
  simp [runLoop, h1, h2, h3]

lemma runLoop_cons_break (c : Chunk) (rest : List Chunk) (s : LoopState)
    (h1 : ¬ maxChunks ≤ s.chunksRecorded)
    (h2 : (stepGate s c).2.2 = true)
    (h3 : lowEnergy (stepRecorded s c) = false) :
    runLoop (c :: rest) s =
      StreamResult.finished (finishStream (stepState s c)).1
        (finishStream (stepState s c)).2 := by
  simp [runLoop, h1, h2, h3]

lemma stepCount_le (s : LoopState) (c : Chunk) :
    stepCount s c ≤ s.chunksRecorded + 1 := by
  unfold stepCount
  split_ifs <;> omega

/-- A session that has not yet seen speech is unchanged by a
silence-classified chunk. -/
lemma stepState_silence_init (c : Chunk) (h : c.speech = false) :
    stepState initLoop c = initLoop ∧ (stepGate initLoop c).2.2 = false := by
  constructor
  · simp [stepState, stepGate, processFrame, initLoop, initGate, stepStarted,
      stepRecorded, stepCount, h]
  · simp [stepGate, processFrame, initLoop, initGate, h]

/-- The loop never leaves its initial state on all-silence input: there
is no no-speech timeout in the source. -/
lemma runLoop_all_silence : ∀ (input : List Chunk),
    (∀ c ∈ input, c.speech = false) →
    runLoop input initLoop = StreamResult.listening initLoop := by
  intro input
  induction input with
  | nil =>
    intro _
    exact runLoop_nil initLoop (by simp [initLoop, maxChunks])
  | cons c rest ih =>
    intro h
    have hc : c.speech = false := h c (List.mem_cons_self c rest)
    obtain ⟨hstate, hend⟩ := stepState_silence_init c hc
    rw [runLoop_cons_continue c rest initLoop (by simp [initLoop, maxChunks])
      hend, hstate]
    exact ih (fun x hx => h x (List.mem_cons_of_mem c hx))

/-- While the gate is active with a zero silence counter, a run of
speech-classified chunks accumulates them one-for-one without any event,
provided the chunk budget is not exceeded. -/
lemma runLoop_speech_run : ∀ (L : List Chunk), (∀ c ∈ L, c.speech = true) →
    ∀ (rest : List Chunk) (sc : ℕ) (rb : List (List ℚ)) (R : List (List ℚ))
      (m : ℕ), m + L.length ≤ maxChunks →
    runLoop (L ++ rest) ⟨⟨true, sc, 0, rb⟩, true, R, m⟩ =
      runLoop rest ⟨⟨true, sc, 0, rb⟩, true, R ++ L.map Chunk.samples,
        m + L.length⟩ := by
  intro L
  induction L with
  | nil =>
    intro _ rest sc rb R m _
    simp
  | cons c L ih =>
    intro hL rest sc rb R m hm
    have hc : c.speech = true := hL c (List.mem_cons_self c L)
    have hcap : ¬ maxChunks ≤ m := by
      simp only [List.length_cons] at hm
      omega
    have hend : (stepGate ⟨⟨true, sc, 0, rb⟩, true, R, m⟩ c).2.2 = false := by
      simp [stepGate, processFrame, hc]
    have hstate : stepState ⟨⟨true, sc, 0, rb⟩, true, R, m⟩ c =
        ⟨⟨true, sc, 0, rb⟩, true, R ++ [c.samples], m + 1⟩ := by
      simp [stepState, stepGate, processFrame, hc, stepStarted, stepRecorded,
        stepCount]
    rw [List.cons_append, runLoop_cons_continue c (L ++ rest) _ hcap hend,
      hstate]
    rw [ih (fun x hx => hL x (List.mem_cons_of_mem c hx)) rest sc rb
      (R ++ [c.samples]) (m + 1) (by simp only [List.length_cons] at hm; omega)]
    refine congrArg (runLoop rest) ?_
    have h1 : (R ++ [c.samples]) ++ List.map Chunk.samples L =
        R ++ List.map Chunk.samples (c :: L) := by
      simp [List.append_assoc]
    have h2 : m + 1 + L.length = m + (c :: L).length := by
      simp only [List.length_cons]
      omega
    rw [h1, h2]

/-- An active session fed speech until the chunk budget is exhausted
terminates by max-duration truncation: everything accumulated goes
through the post-hoc policy, and the warning is surfaced exactly once. -/
lemma runLoop_speech_to_cap (L rest : List Chunk) (sc : ℕ)
    (rb : List (List ℚ)) (R : List (List ℚ)) (m : ℕ)
    (hL : ∀ c ∈ L, c.speech = true) (hm : m + L.length = maxChunks) :
    runLoop (L ++ rest) ⟨⟨true, sc, 0, rb⟩, true, R, m⟩ =
      StreamResult.finished (postHoc (R ++ L.map Chunk.samples)) 1 := by
  rw [runLoop_speech_run L hL rest sc rb R m (le_of_eq hm)]
  rw [runLoop_cap rest _ (by simp [hm])]
  simp [finishStream, hm]

/-- While the gate is active, a run of silence-classified chunks that
completes the padding count fires `speech_ended`, after which either the
low-energy branch restarts a fresh session or the loop breaks and the
post-loop code runs on everything accumulated. -/
lemma runLoop_silence_run : ∀ (k j : ℕ) (c : Chunk), c.speech = false →
    1 ≤ k → j + k = 25 →
    ∀ (rest : List Chunk) (sc : ℕ) (rb : List (List ℚ)) (R : List (List ℚ))
      (m : ℕ), m + k ≤ maxChunks →
    runLoop (List.replicate k c ++ rest) ⟨⟨true, sc, j, rb⟩, true, R, m⟩ =
      (if lowEnergy (R ++ List.replicate k c.samples) then
        runLoop rest initLoop
      else
        StreamResult.finished
          (finishStream ⟨⟨false, sc, 0, rb⟩, true,
            R ++ List.replicate k c.samples, m + k⟩).1
          (finishStream ⟨⟨false, sc, 0, rb⟩, true,
            R ++ List.replicate k c.samples, m + k⟩).2) := by
  intro k
  induction k with
  | zero =>
    intro j c _ h1 _
    omega
  | succ k ih =>
    intro j c hc _ hjk rest sc rb R m hm
    have hcap : ¬ maxChunks ≤ m := by
      unfold maxChunks at hm ⊢
      omega
    rcases Nat.eq_zero_or_pos k with hk0 | hkpos
    · subst hk0
      have hj : j = 24 := by omega
      subst hj
      have hend : (stepGate ⟨⟨true, sc, 24, rb⟩, true, R, m⟩ c).2.2 = true := by
        simp [stepGate, processFrame, hc]
      have hrec : stepRecorded ⟨⟨true, sc, 24, rb⟩, true, R, m⟩ c =
          R ++ [c.samples] := by
        simp [stepRecorded, stepStarted]
      have hstate : stepState ⟨⟨true, sc, 24, rb⟩, true, R, m⟩ c =
          ⟨⟨false, sc, 0, rb⟩, true, R ++ [c.samples], m + 1⟩ := by
        simp [stepState, stepGate, processFrame, hc, stepStarted, stepRecorded,
          stepCount]
      have hrep : List.replicate 1 c ++ rest = c :: rest := by simp
      rw [hrep]
      by_cases hlow : lowEnergy (R ++ [c.samples]) = true
      · rw [runLoop_cons_reject c rest _ hcap hend (by rw [hrec]; exact hlow)]
        rw [if_pos (by simpa using hlow)]
      · have hlow' : lowEnergy (R ++ [c.samples]) = false := by
          revert hlow
          cases lowEnergy (R ++ [c.samples]) <;> simp
        rw [runLoop_cons_break c rest _ hcap hend (by rw [hrec]; exact hlow'),
          hstate]
        rw [if_neg (by simp [hlow'])]
        all_goals simp
    · have hjlt : ¬ (25 : ℕ) ≤ j + 1 := by omega
      have hend : (stepGate ⟨⟨true, sc, j, rb⟩, true, R, m⟩ c).2.2 = false := by
        simp [stepGate, processFrame, hc, hjlt]
      have hstate : stepState ⟨⟨true, sc, j, rb⟩, true, R, m⟩ c =
          ⟨⟨true, sc, j + 1, rb⟩, true, R ++ [c.samples], m + 1⟩ := by
        simp [stepState, stepGate, processFrame, hc, hjlt, stepStarted,
          stepRecorded, stepCount]
      have hrep : List.replicate (k + 1) c ++ rest =
          c :: (List.replicate k c ++ rest) := by
        simp [List.replicate_succ]
      rw [hrep, runLoop_cons_continue c _ _ hcap hend, hstate]
      rw [ih (j + 1) c hc hkpos (by omega) rest sc rb (R ++ [c.samples])
        (m + 1) (by omega)]
      have hR : (R ++ [c.samples]) ++ List.replicate k c.samples =
          R ++ List.replicate (k + 1) c.samples := by
        rw [List.append_assoc, List.singleton_append, ← List.replicate_succ]
      have hmk : m + 1 + k = m + (k + 1) := by omega
      rw [hR, hmk]

/-- Reaching the truncation warning requires the chunk budget to be
filled by chunks consumed in the current (post-restart) attempt. -/
lemma runLoop_warn_budget : ∀ (input : List Chunk) (s : LoopState)
    (r : Option (List ℚ)), runLoop input s = StreamResult.finished r 1 →
    maxChunks ≤ s.chunksRecorded + input.length := by
  intro input
  induction input with
  | nil =>
    intro s r h
    by_cases hcap : maxChunks ≤ s.chunksRecorded
    · simpa using hcap
    · rw [runLoop_nil s hcap] at h
      exact absurd h (by simp)
  | cons c rest ih =>
    intro s r h
    by_cases hcap : maxChunks ≤ s.chunksRecorded
    · simp only [List.length_cons]
      omega
    · by_cases hend : (stepGate s c).2.2 = true
      · by_cases hlow : lowEnergy (stepRecorded s c) = true
        · rw [runLoop_cons_reject c rest s hcap hend hlow] at h
          have hrest := ih initLoop r h
          simp only [initLoop] at hrest
          simp only [List.length_cons]
          omega
        · have hlow' : lowEnergy (stepRecorded s c) = false := by
            revert hlow
            cases lowEnergy (stepRecorded s c) <;> simp
          rw [runLoop_cons_break c rest s hcap hend hlow'] at h
          have h2 : (finishStream (stepState s c)).2 = 1 := by
            have := h
            simp only [StreamResult.finished.injEq] at this
            exact this.2
          have hcnt : maxChunks ≤ (stepState s c).chunksRecorded := by
            by_contra hno
            unfold finishStream at h2
            cases hstart : (stepState s c).speechStarted <;>
              simp [hstart, hno] at h2
          have hle : (stepState s c).chunksRecorded ≤ s.chunksRecorded + 1 :=
            stepCount_le s c
          simp only [List.length_cons]
          omega
      · have hend' : (stepGate s c).2.2 = false := by
          revert hend
          cases (stepGate s c).2.2 <;> simp
        rw [runLoop_cons_continue c rest s hcap hend'] at h
        have hrest := ih (stepState s c) r h
        have hle : (stepState s c).chunksRecorded ≤ s.chunksRecorded + 1 :=
          stepCount_le s c
        simp only [List.length_cons]
        omega

/-! ## Arithmetic helpers for concrete runs -/

lemma sumSq_cons (x : ℚ) (l : List ℚ) : sumSq (x :: l) = x * x + sumSq l := by
  unfold sumSq
  simp

lemma sumSq_replicate (n : ℕ) (x : ℚ) :
    sumSq (List.replicate n x) = n * (x * x) := by
  unfold sumSq
  rw [List.map_replicate, List.sum_replicate, nsmul_eq_mul]

lemma flatten_replicate_replicate (n m : ℕ) (x : ℚ) :
    (List.replicate n (List.replicate m x)).flatten =
      List.replicate (n * m) x := by
  induction n with
  | zero => simp
  | succ n ih =>
    rw [List.replicate_succ, List.flatten_cons, ih, ← List.replicate_add]
    congr 1
    ring

lemma foldl_max_const : ∀ (n : ℕ) (a b : ℚ), b ≤ a →
    List.foldl max a (List.replicate n b) = a := by
  intro n
  induction n with
  | zero => intro a b _; rfl
  | succ n ih =>
    intro a b h
    rw [List.replicate_succ, List.foldl_cons, max_eq_left h]
    exact ih a b h

lemma foldl_absmax_const : ∀ (n : ℕ) (a b : ℚ), |b| ≤ a →
    List.foldl (fun acc y => max acc |y|) a (List.replicate n b) = a := by
  intro n
  induction n with
  | zero => intro a b _; rfl
  | succ n ih =>
    intro a b h
    rw [List.replicate_succ, List.foldl_cons]
    have hm : max a |b| = a := max_eq_left h
    rw [hm]
    exact ih a b h

lemma listMax_cons_replicate (n : ℕ) (a b : ℚ) (h : b ≤ a) :
    listMax (a :: List.replicate n b) = a := by
  unfold listMax
  exact foldl_max_const n a b h

lemma listMax_replicate_succ (n : ℕ) (x : ℚ) :
    listMax (List.replicate (n + 1) x) = x := by
  rw [List.replicate_succ]
  exact listMax_cons_replicate n x x (le_refl x)

lemma absMax_replicate_succ (n : ℕ) (x : ℚ) :
    absMax (List.replicate (n + 1) x) = |x| := by
  rw [List.replicate_succ]
  unfold absMax
  exact foldl_absmax_const n |x| x (le_refl |x|)

/-! ## Concrete inputs for the session-level claims -/

/-- A 480-sample all-zero block (one 30 ms frame of digital silence). -/
def zeroSamples : List ℚ := List.replicate 480 0

/-- A 480-sample block at constant amplitude minus one half. -/
def negHalfSamples : List ℚ := List.replicate 480 (-(1 : ℚ) / 2)

/-- A 480-sample block with one loud sample and the rest zero. -/
def loudSamples : List ℚ := (9 : ℚ) / 10 :: List.replicate 479 0

/-- A silence-classified all-zero chunk. -/
def silentChunk : Chunk := ⟨false, zeroSamples⟩

/-- A speech-classified all-zero chunk. -/
def speechQuiet : Chunk := ⟨true, zeroSamples⟩

/-- A speech-classified chunk with one loud sample. -/
def speechLoudOnce : Chunk := ⟨true, loudSamples⟩

/-- A speech-classified chunk at amplitude minus one half. -/
def speechNegHalf : Chunk := ⟨true, negHalfSamples⟩

/-- A silence-classified chunk at amplitude minus one half. -/
def silenceNegHalf : Chunk := ⟨false, negHalfSamples⟩

/-- The result is a `None` return of the Python function. -/
def returnedNone : StreamResult → Bool
  | StreamResult.finished none _ => true
  | _ => false

/-- Scenario A input: 334 all-silence frames, a little over 10 seconds
at 30 ms per frame. -/
def c1input : List Chunk := List.replicate 334 silentChunk

/-- C1 counterexample: feeding a little over 10 seconds of all-silence
frames does not make the capture session return `None` — the source has
no no-speech timeout, the loop is still waiting in its initial state
after consuming all the input. -/
theorem c1_counterexample :
    vadStream c1input = StreamResult.listening initLoop ∧
      returnedNone (vadStream c1input) = false := by
  have h : vadStream c1input = StreamResult.listening initLoop :=
    runLoop_all_silence c1input (fun c hc => by
      rw [(List.mem_replicate.mp hc).2]
      rfl)
  refine ⟨h, ?_⟩
  rw [h]
  rfl

/-- C1 (amended): the streaming capture session has no no-speech
timeout: as long as no chunk is classified as speech the loop keeps
listening indefinitely in its initial state; no `None` return and no
segment is produced, no matter how much silence accumulates. -/
theorem c1_no_timeout : ∀ (input : List Chunk),
    (∀ c ∈ input, c.speech = false) →
    vadStream input = StreamResult.listening initLoop := by
  intro input h
  exact runLoop_all_silence input h

/-- C1 witness: the amended theorem applied to a one-chunk silence
input. -/
theorem c1_no_timeout_witness :
    (∀ c ∈ [Chunk.mk false []], c.speech = false) ∧
      vadStream [Chunk.mk false []] = StreamResult.listening initLoop :=
  ⟨by decide, c1_no_timeout [Chunk.mk false []] (by decide)⟩

/-- C6: when the gate is active and the accumulated chunk count reaches
`max_chunks` without a `speech_ended` event, the session terminates, the
terminal segment handed to the post-hoc policy is everything accumulated
so far, and the truncation warning is surfaced exactly once. -/
theorem c6_max_duration_truncation : ∀ (L rest : List Chunk) (sc : ℕ)
    (rb : List (List ℚ)) (R : List (List ℚ)) (m : ℕ),
    (∀ c ∈ L, c.speech = true) → m + L.length = maxChunks →
    runLoop (L ++ rest) ⟨⟨true, sc, 0, rb⟩, true, R, m⟩ =
      StreamResult.finished (postHoc (R ++ L.map Chunk.samples)) 1 := by
  intro L rest sc rb R m hL hm
  exact runLoop_speech_to_cap L rest sc rb R m hL hm

/-- C6 witness: one more speech chunk on a session that has accumulated
999 chunks terminates with the warning surfaced once. -/
theorem c6_truncation_witness :
    ((∀ c ∈ [Chunk.mk true []], c.speech = true) ∧
      999 + [Chunk.mk true []].length = maxChunks) ∧
    runLoop ([Chunk.mk true []] ++ []) ⟨⟨true, 0, 0, []⟩, true, [], 999⟩ =
      StreamResult.finished (postHoc ([] ++ [Chunk.mk true []].map Chunk.samples)) 1 :=
  ⟨⟨by decide, by decide⟩,
    c6_max_duration_truncation [Chunk.mk true []] [] 0 [] [] 999 (by decide)
      (by decide)⟩

/-! ## Scenario runs for C2, C3 and C10 -/

/-- C2 input: 13 speech-classified chunks followed by 25
silence-classified chunks, all at constant amplitude minus one half. -/
def c2input : List Chunk :=
  List.replicate 13 speechNegHalf ++ List.replicate 25 silenceNegHalf

lemma lowEnergy_c2 : lowEnergy (List.replicate 36 negHalfSamples) = false := by
  have h1 : (List.replicate 36 negHalfSamples).take
      ((List.replicate 36 negHalfSamples).length - 25) =
      List.replicate 11 negHalfSamples := by
    rw [List.length_replicate, List.take_replicate]
    norm_num
  have h2 : (List.replicate 11 negHalfSamples).flatten =
      List.replicate 5280 (-(1 : ℚ) / 2) := by
    unfold negHalfSamples
    rw [flatten_replicate_replicate]
  have h3 : meanSq (List.replicate 5280 (-(1 : ℚ) / 2)) = 1 / 4 := by
    unfold meanSq
    rw [sumSq_replicate, List.length_replicate]
    norm_num
  unfold lowEnergy
  rw [h1, h2, h3]
  rw [decide_eq_false (by norm_num : ¬ ((1 : ℚ) / 4 < 1 / 1000))]
  rw [Bool.and_false]

lemma postHoc_c2 : postHoc (List.replicate 36 negHalfSamples) = none := by
  have hflat : (List.replicate 36 negHalfSamples).flatten =
      List.replicate 17280 (-(1 : ℚ) / 2) := by
    unfold negHalfSamples
    rw [flatten_replicate_replicate]
  have hmax : listMax (List.replicate 17280 (-(1 : ℚ) / 2)) = -(1 : ℚ) / 2 := by
    rw [show (17280 : ℕ) = 17279 + 1 by norm_num]
    exact listMax_replicate_succ 17279 (-(1 : ℚ) / 2)
  unfold postHoc
  rw [if_pos (by simp), hflat]
  rw [if_neg (by rw [List.length_replicate]; norm_num)]
  rw [if_pos (by rw [hmax]; norm_num)]

lemma postHocSpec_c2 : postHocSpec (List.replicate 36 negHalfSamples) =
    some (List.replicate 17280 (-(1 : ℚ) / 2)) := by
  have hflat : (List.replicate 36 negHalfSamples).flatten =
      List.replicate 17280 (-(1 : ℚ) / 2) := by
    unfold negHalfSamples
    rw [flatten_replicate_replicate]
  have hmax : absMax (List.replicate 17280 (-(1 : ℚ) / 2)) = 1 / 2 := by
    rw [show (17280 : ℕ) = 17279 + 1 by norm_num,
      absMax_replicate_succ 17279 (-(1 : ℚ) / 2)]
    norm_num
  unfold postHocSpec
  rw [if_pos (by simp), hflat]
  rw [if_neg (by rw [List.length_replicate]; norm_num)]
  rw [if_neg (by rw [hmax]; norm_num)]

/-- The full run of the C2 scenario: the session captures a 36-chunk
segment of amplitude minus one half and the post-hoc amplitude floor
rejects it, returning `None` with no warning. -/
lemma c2run : vadStream c2input = StreamResult.finished none 0 := by
  have e1 : c2input = speechNegHalf :: speechNegHalf :: speechNegHalf ::
      (List.replicate 10 speechNegHalf ++
        List.replicate 25 silenceNegHalf) := by
    unfold c2input
    rw [show (13 : ℕ) = 3 + 10 by norm_num, List.replicate_add,
      List.append_assoc]
    rfl
  have hs1 : stepState initLoop speechNegHalf =
      ⟨⟨false, 1, 0, []⟩, false, [], 0⟩ := rfl
  have hs2 : stepState ⟨⟨false, 1, 0, []⟩, false, [], 0⟩ speechNegHalf =
      ⟨⟨false, 2, 0, []⟩, false, [], 0⟩ := rfl
  have hs3 : stepState ⟨⟨false, 2, 0, []⟩, false, [], 0⟩ speechNegHalf =
      ⟨⟨true, 0, 0, []⟩, true, [negHalfSamples], 1⟩ := rfl
  unfold vadStream
  rw [e1]
  rw [runLoop_cons_continue _ _ _ (by decide) (by decide), hs1]
  rw [runLoop_cons_continue _ _ _ (by decide) (by decide), hs2]
  rw [runLoop_cons_continue _ _ _ (by decide) (by decide), hs3]
  rw [runLoop_speech_run (List.replicate 10 speechNegHalf)
    (fun c hc => by rw [(List.mem_replicate.mp hc).2]; rfl)
    (List.replicate 25 silenceNegHalf) 0 [] [negHalfSamples] 1
    (by simp [maxChunks])]
  have hrec : [negHalfSamples] ++
      (List.replicate 10 speechNegHalf).map Chunk.samples =
      List.replicate 11 negHalfSamples := by
    rw [List.map_replicate, show speechNegHalf.samples = negHalfSamples
      from rfl, List.singleton_append, ← List.replicate_succ]
  have hcnt : 1 + (List.replicate 10 speechNegHalf).length = 11 := by simp
  rw [hrec, hcnt]
  rw [← List.append_nil (List.replicate 25 silenceNegHalf)]
  rw [runLoop_silence_run 25 0 silenceNegHalf rfl (by norm_num) (by norm_num)
    [] 0 [] (List.replicate 11 negHalfSamples) 11 (by norm_num [maxChunks])]
  have hrec2 : List.replicate 11 negHalfSamples ++
      List.replicate 25 silenceNegHalf.samples =
      List.replicate 36 negHalfSamples := by
    rw [show silenceNegHalf.samples = negHalfSamples from rfl,
      ← List.replicate_add]
  rw [hrec2]
  rw [if_neg (by rw [lowEnergy_c2]; exact Bool.false_ne_true)]
  have hfin : finishStream ⟨⟨false, 0, 0, []⟩, true,
      List.replicate 36 negHalfSamples, 11 + 25⟩ = (none, 0) := by
    unfold finishStream
    rw [if_neg (by simp)]
    rw [postHoc_c2]
    rw [if_neg (by norm_num [maxChunks])]
  rw [hfin]

/-- C2 counterexample: a fully captured, sufficiently long segment at
constant amplitude minus one half has peak absolute amplitude one half
(far above 0.08), so the claimed policy accepts it — yet the session
returns `None`, because the source compares the signed `audio.max()`
(here minus one half) against 0.08. -/
theorem c2_counterexample :
    vadStream c2input = StreamResult.finished none 0 ∧
      postHocSpec (List.replicate 36 negHalfSamples) =
        some (List.replicate 17280 (-(1 : ℚ) / 2)) ∧
      4800 ≤ (List.replicate 17280 (-(1 : ℚ) / 2)).length :=
  ⟨c2run, postHocSpec_c2, by rw [List.length_replicate]; norm_num⟩

/-- C2 (amended): the post-hoc policy applies in order — duration floor
first, then the amplitude floor read on the SIGNED maximum sample value
(`audio.max()`, not the peak absolute amplitude) — and accepts
otherwise. -/
theorem c2_posthoc_order : ∀ (recorded : List (List ℚ)), recorded ≠ [] →
    (recorded.flatten.length < 4800 → postHoc recorded = none) ∧
    (¬ recorded.flatten.length < 4800 → listMax recorded.flatten < 2 / 25 →
      postHoc recorded = none) ∧
    (¬ recorded.flatten.length < 4800 → ¬ listMax recorded.flatten < 2 / 25 →
      postHoc recorded = some recorded.flatten) := by
  intro recorded h
  refine ⟨fun h1 => ?_, fun h1 h2 => ?_, fun h1 h2 => ?_⟩
  · unfold postHoc
    rw [if_pos h, if_pos h1]
  · unfold postHoc
    rw [if_pos h, if_neg h1, if_pos h2]
  · unfold postHoc
    rw [if_pos h, if_neg h1, if_neg h2]

/-- C2 witness: a one-sample segment is rejected by the duration
floor. -/
theorem c2_posthoc_witness :
    ([[(1 : ℚ)]] ≠ ([] : List (List ℚ)) ∧
      ([[(1 : ℚ)]] : List (List ℚ)).flatten.length < 4800) ∧
      postHoc [[(1 : ℚ)]] = none :=
  ⟨⟨by decide, by decide⟩,
    (c2_posthoc_order [[(1 : ℚ)]] (by decide)).1 (by decide)⟩

/-- C3 input: two quiet speech chunks, one speech chunk with a single
loud sample, then 999 quiet speech chunks — the classifier reports
speech throughout, so no `speech_ended` ever fires. -/
def c3input : List Chunk :=
  speechQuiet :: speechQuiet :: speechLoudOnce ::
    List.replicate 999 speechQuiet

/-- The segment the C3 run accumulates: the trigger chunk with the loud
sample followed by 999 all-zero chunks. -/
def c3rec : List (List ℚ) := loudSamples :: List.replicate 999 zeroSamples

lemma c3flat : c3rec.flatten = (9 : ℚ) / 10 :: List.replicate 479999 0 := by
  unfold c3rec loudSamples zeroSamples
  rw [List.flatten_cons, flatten_replicate_replicate, List.cons_append,
    ← List.replicate_add]

/-- The C3 segment is low-energy in the sense of the source: excluding
the last 25 chunks, its mean square is far below 0.001. -/
lemma lowEnergy_c3 : lowEnergy c3rec = true := by
  have hlen : c3rec.length = 1000 := by
    unfold c3rec
    rw [List.length_cons, List.length_replicate]
  have htake : c3rec.take (c3rec.length - 25) =
      loudSamples :: List.replicate 974 zeroSamples := by
    rw [hlen]
    unfold c3rec
    rw [show (1000 : ℕ) - 25 = 974 + 1 by norm_num]
    rw [List.take_succ_cons, List.take_replicate,
      min_eq_left (by norm_num : (974 : ℕ) ≤ 999)]
  have hflat : (loudSamples :: List.replicate 974 zeroSamples).flatten =
      (9 : ℚ) / 10 :: List.replicate 467999 0 := by
    unfold loudSamples zeroSamples
    rw [List.flatten_cons, flatten_replicate_replicate, List.cons_append,
      ← List.replicate_add]
  have hmean : meanSq ((9 : ℚ) / 10 :: List.replicate 467999 0) < 1 / 1000 := by
    unfold meanSq
    rw [sumSq_cons, sumSq_replicate, List.length_cons, List.length_replicate]
    push_cast
    norm_num
  unfold lowEnergy
  rw [htake, hflat, decide_eq_true hmean]
  rfl

lemma postHoc_c3 : postHoc c3rec = some c3rec.flatten := by
  have hne : c3rec ≠ [] := by
    unfold c3rec
    exact List.cons_ne_nil _ _
  have hflatlen : ¬ ((9 : ℚ) / 10 :: List.replicate 479999 0).length < 4800 := by
    rw [List.length_cons, List.length_replicate]
    norm_num
  have hmax : ¬ listMax ((9 : ℚ) / 10 :: List.replicate 479999 0) < 2 / 25 := by
    rw [listMax_cons_replicate 479999 ((9 : ℚ) / 10) 0 (by norm_num)]
    norm_num
  unfold postHoc
  rw [if_pos hne, c3flat, if_neg hflatlen, if_neg hmax]

/-- The full run of the C3 scenario: continuous speech classification
drives the session into max-duration truncation, and the post-hoc policy
accepts the low-energy segment (its single loud sample passes the
amplitude floor), returning it with the warning surfaced once. -/
lemma c3run : vadStream c3input = StreamResult.finished (some c3rec.flatten) 1 := by
  have hs1 : stepState initLoop speechQuiet =
      ⟨⟨false, 1, 0, []⟩, false, [], 0⟩ := rfl
  have hs2 : stepState ⟨⟨false, 1, 0, []⟩, false, [], 0⟩ speechQuiet =
      ⟨⟨false, 2, 0, []⟩, false, [], 0⟩ := rfl
  have hs3 : stepState ⟨⟨false, 2, 0, []⟩, false, [], 0⟩ speechLoudOnce =
      ⟨⟨true, 0, 0, []⟩, true, [loudSamples], 1⟩ := rfl
  unfold vadStream c3input
  rw [runLoop_cons_continue _ _ _ (by decide) (by decide), hs1]
  rw [runLoop_cons_continue _ _ _ (by decide) (by decide), hs2]
  rw [runLoop_cons_continue _ _ _ (by decide) (by decide), hs3]
  rw [← List.append_nil (List.replicate 999 speechQuiet)]
  rw [runLoop_speech_to_cap (List.replicate 999 speechQuiet) [] 0 []
    [loudSamples] 1
    (fun c hc => by rw [(List.mem_replicate.mp hc).2]; rfl)
    (by rw [List.length_replicate]; rfl)]
  have hrec : [loudSamples] ++
      (List.replicate 999 speechQuiet).map Chunk.samples = c3rec := by
    rw [List.map_replicate, show speechQuiet.samples = zeroSamples from rfl,
      List.singleton_append]
    rfl
  rw [hrec, postHoc_c3]

/-- C3 counterexample: a captured segment whose mean square (excluding
the last 25 chunks) is far below 0.001 IS returned to the caller as an
accepted segment — the max-duration truncation path never runs the
low-energy check. -/
theorem c3_counterexample :
    lowEnergy c3rec = true ∧
      vadStream c3input = StreamResult.finished (some c3rec.flatten) 1 :=
  ⟨lowEnergy_c3, c3run⟩

/-- C3 (amended): for segments that terminate through the `speech_ended`
event, the low-energy guarantee holds: if the accumulated buffer
(excluding the trailing 25 padding chunks) has mean square below 0.001,
the buffer is discarded and the session continues exactly as a fresh
session — the segment is never surfaced.  Only max-duration-truncated
segments bypass this check. -/
theorem c3_energy_reject_resumes : ∀ (s : LoopState) (c : Chunk)
    (rest : List Chunk), ¬ maxChunks ≤ s.chunksRecorded →
    (stepGate s c).2.2 = true → lowEnergy (stepRecorded s c) = true →
    runLoop (c :: rest) s = runLoop rest initLoop := by
  intro s c rest h1 h2 h3
  exact runLoop_cons_reject c rest s h1 h2 h3

/-- State for the C3 and C10 witnesses: active gate one frame away from
the padding count, 25 all-zero chunks accumulated. -/
def c3wState : LoopState := ⟨⟨true, 0, 24, []⟩, true, List.replicate 25 [(0 : ℚ)], 25⟩

/-- The all-zero silence chunk with a single sample used by the
witnesses. -/
def czero : Chunk := ⟨false, [(0 : ℚ)]⟩

lemma lowEnergy_allzero26 : lowEnergy (List.replicate 26 [(0 : ℚ)]) = true := by
  have htake : (List.replicate 26 [(0 : ℚ)]).take
      ((List.replicate 26 [(0 : ℚ)]).length - 25) =
      List.replicate 1 [(0 : ℚ)] := by
    rw [List.length_replicate, List.take_replicate]
    norm_num
  have hflat : (List.replicate 1 [(0 : ℚ)]).flatten =
      List.replicate 1 (0 : ℚ) := by
    rw [show [(0 : ℚ)] = List.replicate 1 (0 : ℚ) from rfl,
      flatten_replicate_replicate]
  have hmean : meanSq (List.replicate 1 (0 : ℚ)) < 1 / 1000 := by
    unfold meanSq
    rw [sumSq_replicate, List.length_replicate]
    norm_num
  unfold lowEnergy
  rw [htake, hflat, decide_eq_true hmean]
  rfl

lemma stepRecorded_c3w : stepRecorded c3wState czero =
    List.replicate 26 [(0 : ℚ)] := by
  have hst : stepStarted c3wState czero = true := by
    simp [stepStarted, c3wState]
  unfold stepRecorded
  rw [hst, if_pos rfl]
  show List.replicate 25 [(0 : ℚ)] ++ [czero.samples] = _
  rw [show czero.samples = [(0 : ℚ)] from rfl, ← List.replicate_succ']

/-- C3 witness: the amended theorem applied to a session one silence
frame away from `speech_ended` holding 26 all-zero chunks. -/
theorem c3_energy_reject_witness :
    (¬ maxChunks ≤ c3wState.chunksRecorded ∧
      (stepGate c3wState czero).2.2 = true ∧
      lowEnergy (stepRecorded c3wState czero) = true) ∧
    runLoop [czero] c3wState = runLoop [] initLoop := by
  have hlow : lowEnergy (stepRecorded c3wState czero) = true := by
    rw [stepRecorded_c3w]
    exact lowEnergy_allzero26
  exact ⟨⟨by decide, by decide, hlow⟩,
    c3_energy_reject_resumes c3wState czero [] (by decide) (by decide) hlow⟩

/-- C10: the low-energy rejection branch resets the accumulated chunk
counter to 0, clears the buffer and replaces the pending queue with an
empty one; consequently the `max_recording_duration` budget restarts
from zero — after a restart the truncation warning can only be reached
once a full `max_chunks` worth of fresh chunks has been consumed, so the
budget never counts time elapsed before the rejection. -/
theorem c10_reject_budget_restart :
    (∀ v : SessionVars, lowEnergy v.recordedChunks = true →
      onEndedBranch v = Sum.inl ⟨initGate, false, false, [], 0, []⟩) ∧
    (∀ (rest : List Chunk) (r : Option (List ℚ)),
      runLoop rest initLoop = StreamResult.finished r 1 →
      maxChunks ≤ rest.length) := by
  constructor
  · intro v hv
    unfold onEndedBranch
    rw [if_pos hv]
    rfl
  · intro rest r h
    have hb := runLoop_warn_budget rest initLoop r h
    simpa [initLoop] using hb

/-- Session variables for the C10 witness: 26 all-zero chunks
accumulated, ended flag raised. -/
def c10v : SessionVars :=
  ⟨⟨true, 0, 0, []⟩, true, true, List.replicate 26 [(0 : ℚ)], 26, []⟩

/-- C10 witness: the branch theorem applied to a concrete low-energy
state, and the budget theorem applied to the C3 run, which reaches the
truncation warning only because its input carries at least 1000
chunks. -/
theorem c10_witness :
    (lowEnergy c10v.recordedChunks = true ∧
      onEndedBranch c10v = Sum.inl ⟨initGate, false, false, [], 0, []⟩) ∧
    (vadStream c3input = StreamResult.finished (some c3rec.flatten) 1 ∧
      maxChunks ≤ c3input.length) := by
  have hlow : lowEnergy c10v.recordedChunks = true := lowEnergy_allzero26
  exact ⟨⟨hlow, c10_reject_budget_restart.1 c10v hlow⟩,
    ⟨c3run, c10_reject_budget_restart.2 c3input (some c3rec.flatten) c3run⟩⟩
